import Mathlib

set_option autoImplicit false

/-!
Verification development for the rolling time-series buffer of
`musemonitor/online.py` (classes `Data`, `TimeSeries`, `LSLStreamer`).

The Python code is shallowly embedded: the mutable object state of a
`TimeSeries` becomes an explicit record that is threaded through the
operations, Python list/array slicing becomes explicit functions on
`List`, and the persistence / locking side effects become event traces.
Machine floats never enter any arithmetic here (the buffer logic only
moves samples around), so samples are modelled by an arbitrary type.
-/

namespace WizardHat

/-- Python exception kinds raised by the embedded code paths. -/
inductive PyErr where
  | attributeError
  | typeError
  | valueError
  | indexError
  | notImplementedError
  deriving Repr, DecidableEq

/-- Python slice `xs[-n:]` for a literal nonnegative `n`, as used in
`TimeSeries._append` (`self._data[-self.n_samples:]`).  Note the Python
corner case: `xs[-0:]` is `xs[0:]`, which keeps the *entire* list, while
for `n ≥ 1` it keeps the last `min n (length xs)` elements. -/
def sliceLastN {α : Type} (n : Nat) (xs : List α) : List α :=
  if n = 0 then xs else xs.drop (xs.length - n)

/-- Python slice `xs[:c]` for an arbitrary (possibly negative) integer `c`,
as used in `TimeSeries.update` (`new[:cutoff]`). -/
def sliceUpTo {α : Type} (c : Int) (xs : List α) : List α :=
  xs.take (if 0 ≤ c then c.toNat else xs.length - (-c).toNat)

/-- Python slice `xs[c:]` for an arbitrary (possibly negative) integer `c`,
as used in `TimeSeries.update` (`new[cutoff:]`). -/
def sliceFrom {α : Type} (c : Int) (xs : List α) : List α :=
  xs.drop (if 0 ≤ c then c.toNat else xs.length - (-c).toNat)

/-- The mutable state of a `TimeSeries` instance that `update` touches:
`self._data` (the stored window), `self._count` (the fill counter, which
the code lets go negative before resetting, hence `Int`), and
`self.n_samples` (the capacity, fixed at construction). -/
@[ext]
structure TimeSeriesState (α : Type) where
  data : List α
  count : Int
  nSamples : Nat
  deriving Repr, DecidableEq

/-- Observable side effects of one `TimeSeries.update` call, in program
order: each `self._append(...)` sub-append and each
`self._write_to_file()` flush (recorded with the rows it serializes). -/
inductive TSEvent (α : Type) where
  | append (chunk : List α)
  | flush (rows : List α)
  deriving Repr, DecidableEq

/-- Embedding of `TimeSeries._append`:
`self._data = np.concatenate([self._data, new]); self._data = self.data[-self.n_samples:]`. -/
def TimeSeriesState.appendTrim {α : Type} (s : TimeSeriesState α) (new : List α) :
    TimeSeriesState α :=
  { s with data := sliceLastN s.nSamples (s.data ++ new) }

/-- Embedding of `TimeSeries.update` on an already-formatted chunk `new`:

```
self._count -= len(new)
cutoff = len(new) + self._count
self._append(new[:cutoff])
if self._count < 1:
    self._write_to_file()
    self._count = self.n_samples
self._append(new[cutoff:])
```

Returns the state after the call and the trace of sub-appends and
flushes in program order.  The flush is modelled as the emission of the
current window contents (what `_write_to_file` passes to the sink);
serialization of those rows is embedded separately (`savetxtModel`). -/
def TimeSeriesState.update {α : Type} (s : TimeSeriesState α) (new : List α) :
    TimeSeriesState α × List (TSEvent α) :=
  let countDec : Int := s.count - (new.length : Int)
  let cutoff : Int := (new.length : Int) + countDec
  let s1 := TimeSeriesState.appendTrim { s with count := countDec } (sliceUpTo cutoff new)
  if countDec < 1 then
    let flushed := s1.data
    let s2 : TimeSeriesState α := { s1 with count := (s.nSamples : Int) }
    let s3 := s2.appendTrim (sliceFrom cutoff new)
    (s3, [TSEvent.append (sliceUpTo cutoff new), TSEvent.flush flushed,
          TSEvent.append (sliceFrom cutoff new)])
  else
    (s1.appendTrim (sliceFrom cutoff new),
     [TSEvent.append (sliceUpTo cutoff new), TSEvent.append (sliceFrom cutoff new)])

/-- The flush events of a trace, in order. -/
def flushesOf {α : Type} (tr : List (TSEvent α)) : List (List α) :=
  tr.filterMap fun e =>
    match e with
    | TSEvent.flush w => some w
    | TSEvent.append _ => none

/-- The state of a freshly initialized buffer: `initialize` sets
`self._data = np.zeros((self.n_samples,), dtype=self._dtype)` and
`__init__` sets `self._count = self.n_samples`.  `zero` is the zero
sample produced by `np.zeros` for the structured dtype. -/
def initialState {α : Type} (n : Nat) (zero : α) : TimeSeriesState α :=
  { data := List.replicate n zero, count := (n : Int), nSamples := n }

/-- Embedding of `TimeSeries._format_samples` followed by the `np.array`
construction: `zip(timestamps, samples)` silently truncates to the
shorter of the two sequences (it never raises on a length mismatch),
while `np.array(..., dtype=self._dtype)` raises `ValueError` if some
sample tuple does not match the declared channel arity. -/
def formatSamples {τ : Type} (nChan : Nat) (timestamps : List τ)
    (samples : List (List τ)) : Except PyErr (List (τ × List τ)) :=
  let zipped := timestamps.zip samples
  if zipped.all fun p => p.2.length = nChan then Except.ok zipped
  else Except.error PyErr.valueError

/-- One full `TimeSeries.update(timestamps, samples)` call: format the
chunk, then run the append algorithm. -/
def updateCall {τ : Type} (nChan : Nat) (s : TimeSeriesState (τ × List τ))
    (timestamps : List τ) (samples : List (List τ)) :
    Except PyErr (TimeSeriesState (τ × List τ) × List (TSEvent (τ × List τ))) :=
  (formatSamples nChan timestamps samples).map fun new => s.update new

/-- A sequence of `update` calls on already-formatted chunks, collecting
the concatenated event trace. -/
def runUpdates {α : Type} (s : TimeSeriesState α) :
    List (List α) → TimeSeriesState α × List (TSEvent α)
  | [] => (s, [])
  | c :: cs =>
    let r := s.update c
    let rest := runUpdates r.1 cs
    (rest.1, r.2 ++ rest.2)

/-- Running tally used to measure flush separation over an event trace:
`none` before the first flush, `some g` when `g` samples have been
appended since the most recent flush. -/
def gapsState {α : Type} : List (TSEvent α) → Option Nat → Option Nat
  | [], o => o
  | TSEvent.append _ :: tr, none => gapsState tr none
  | TSEvent.append ch :: tr, some g => gapsState tr (some (g + ch.length))
  | TSEvent.flush _ :: tr, _ => gapsState tr (some 0)

/-- The list of gaps between consecutive flushes in an event trace: for
each flush after the first, the number of samples appended since the
previous flush (counting appends across update-call boundaries,
including appends in the same call as either flush). -/
def gapsAux {α : Type} : List (TSEvent α) → Option Nat → List Nat
  | [], _ => []
  | TSEvent.append _ :: tr, none => gapsAux tr none
  | TSEvent.append ch :: tr, some g => gapsAux tr (some (g + ch.length))
  | TSEvent.flush _ :: tr, none => gapsAux tr (some 0)
  | TSEvent.flush _ :: tr, some g => g :: gapsAux tr (some 0)

/-- Gaps between consecutive flushes of a whole trace. -/
def flushGaps {α : Type} (tr : List (TSEvent α)) : List Nat :=
  gapsAux tr none

/-- A run is straddle-free when every chunk that triggers a flush has
size exactly equal to the fill counter on entry to its `update` call
(the boundary-exact regime the spec describes; `n` is the capacity the
counter is reset to after a flush). -/
def straddleFree (n : Nat) : Int → List Nat → Bool
  | _, [] => true
  | c, k :: ks =>
    if c - (k : Int) < 1 then decide (c = (k : Int)) && straddleFree n (n : Int) ks
    else straddleFree n (c - (k : Int)) ks

/-- Attribute store of a `Data`/`TimeSeries` instance, tracking the
attributes read by `TimeSeries.initialize` and by the `data` property:
`self._lock`, `self.n_samples`, `self._dtype` and `self._data`.  A
`none`/`false` entry means the attribute has not been assigned, so
reading it raises `AttributeError`. -/
structure TSObj (α : Type) where
  hasLock : Bool
  nSamplesAttr : Option Nat
  hasDtype : Bool
  dataAttr : Option (List α)
  deriving Repr, DecidableEq

/-- A freshly allocated instance, before `__init__` has assigned any
attribute. -/
def freshTSObj (α : Type) : TSObj α :=
  { hasLock := false, nSamplesAttr := none, hasDtype := false, dataAttr := none }

/-- Embedding of `TimeSeries.initialize` as a method on the attribute
store: `with self._lock: self._data = np.zeros((self.n_samples,),
dtype=self._dtype)`.  Reading `self._lock`, `self.n_samples` or
`self._dtype` before assignment raises `AttributeError` (in that
evaluation order).  `zero` is the zero sample of the dtype. -/
def tsInitializeMethod {α : Type} (zero : α) (o : TSObj α) : Except PyErr (TSObj α) :=
  if o.hasLock = false then Except.error PyErr.attributeError
  else
    match o.nSamplesAttr with
    | none => Except.error PyErr.attributeError
    | some n =>
      if o.hasDtype = false then Except.error PyErr.attributeError
      else Except.ok { o with dataAttr := some (List.replicate n zero) }

/-- Embedding of `Data.__init__`: it calls `self.initialize()` first
(dispatching to `TimeSeries.initialize` on a `TimeSeries` instance) and
only afterwards assigns `self.metadata`, `self.updated` and
`self._lock`. -/
def dataInitMethod {α : Type} (zero : α) (o : TSObj α) : Except PyErr (TSObj α) := do
  let o1 ← tsInitializeMethod zero o
  Except.ok { o1 with hasLock := true }

/-- The `window` attribute of class `TimeSeries` is declared with
`@property` only (lines 132-139 of the source); no setter is defined
for it. -/
def windowHasSetter : Bool := false

/-- Embedding of the assignment `self.window = window` in
`TimeSeries.__init__`: assigning to a getter-only property raises
`AttributeError`. -/
def setWindowAttr {α : Type} (o : TSObj α) : Except PyErr (TSObj α) :=
  if windowHasSetter then Except.ok o else Except.error PyErr.attributeError

/-- Embedding of `TimeSeries.__init__(ch_names, sfreq, window, ...)` up
to the plain attribute assignments, in source order: `Data.__init__`
(which calls `initialize`), then `self._dtype = ...`, `self.sfreq =
sfreq`, `self.window = window`, `self.n_samples = int(window * sfreq)`
(passed here as `n`), `self._count = self.n_samples`.  The
file-opening tail is never reached because an error is raised first. -/
def timeSeriesConstructor (α : Type) (zero : α) (n : Nat) : Except PyErr (TSObj α) := do
  let o1 ← dataInitMethod zero (freshTSObj α)
  let o2 := { o1 with hasDtype := true }
  let o3 ← setWindowAttr o2
  Except.ok { o3 with nSamplesAttr := some n }

/-- Embedding of the `Data.data` property: `try: with self._lock:
return np.copy(self._data) except AttributeError: raise
NotImplementedError()`.  Any `AttributeError` (a missing `_lock` or a
missing `_data`) is converted into `NotImplementedError`. -/
def dataPropertyMethod {α : Type} (o : TSObj α) : Except PyErr (List α) :=
  if o.hasLock = false then Except.error PyErr.notImplementedError
  else
    match o.dataAttr with
    | none => Except.error PyErr.notImplementedError
    | some d => Except.ok d

/-- The object bound to the `data` attribute of an `LSLStreamer`:
either a `TimeSeries` instance (the default — `__init__` constructs
`TimeSeries(self.ch_names, self.sfreq, metadata=None)` when no `data`
argument is given) or the bare structured array that the class
docstring describes. -/
inductive StreamerBuffer (τ : Type) where
  | tsObject (s : TimeSeriesState (τ × List τ))
  | ndarrayStruct (rows : List (τ × List τ))

/-- Embedding of the subscript `self.data['time']`: a structured numpy
array supports field subscription, while a `TimeSeries` instance
defines no `__getitem__` method, so subscripting it raises
`TypeError`. -/
def bufferGetTimeField {τ : Type} : StreamerBuffer τ → Except PyErr (List τ)
  | StreamerBuffer.tsObject _ => Except.error PyErr.typeError
  | StreamerBuffer.ndarrayStruct rows => Except.ok (rows.map Prod.fst)

/-- Embedding of `LSLStreamer._dejitter_timestamps`:
`utils.dejitter_timestamps(timestamps, sfreq=self.sfreq,
last_time=self.data['time'][-1])`, with `dejitterFn` the external pure
dejitter function and `[-1]` raising `IndexError` on an empty array. -/
def dejitterTimestampsMethod {τ : Type} (dejitterFn : List τ → τ → τ → List τ)
    (sfreq : τ) (buf : StreamerBuffer τ) (timestamps : List τ) :
    Except PyErr (List τ) := do
  let times ← bufferGetTimeField buf
  match times.getLast? with
  | none => Except.error PyErr.indexError
  | some last => Except.ok (dejitterFn timestamps sfreq last)

/-- Embedding of one iteration of the `LSLStreamer.run` loop body after
a pull returned `(samples, timestamps)`:

```
if timestamps:
    if self.dejitter:
        timestamps = self._dejitter_timestamps(timestamps)
    self.data.update(timestamps, samples)
```

`self.data.update(...)` dispatches to `TimeSeries.update` when the
buffer is the default `TimeSeries`; a bare ndarray has no `update`
method, so that case raises `AttributeError`. -/
def runIteration {τ : Type} (dejitterFn : List τ → τ → τ → List τ) (sfreq : τ)
    (dejitterFlag : Bool) (nChan : Nat) (buf : StreamerBuffer τ)
    (timestamps : List τ) (samples : List (List τ)) :
    Except PyErr (StreamerBuffer τ × List (TSEvent (τ × List τ))) :=
  if timestamps.isEmpty then Except.ok (buf, [])
  else do
    let ts ← if dejitterFlag then dejitterTimestampsMethod dejitterFn sfreq buf timestamps
             else Except.ok timestamps
    match buf with
    | StreamerBuffer.tsObject s => do
        let r ← updateCall nChan s ts samples
        Except.ok (StreamerBuffer.tsObject r.1, r.2)
    | StreamerBuffer.ndarrayStruct _ => Except.error PyErr.attributeError

/-- One top-level field of a structured numpy scalar, as iterated by
`np.savetxt` over `tuple(row)`: either an `f8` float (carried here by
its textual rendering — no arithmetic is ever done on it) or a nested
record (a `numpy.void`) of sub-fields. -/
inductive NpField where
  | f64 (txt : String)
  | record (fields : List NpField)

/-- Formatting one field with `savetxt`'s default format `%.18e`: a
float formats successfully, while applying a `%`-format to a nested
record (`numpy.void`) raises `TypeError` (numpy re-raises it as
`Mismatch between array dtype and format specifier`). -/
def formatFieldE : NpField → Except PyErr String
  | NpField.f64 t => Except.ok t
  | NpField.record _ => Except.error PyErr.typeError

/-- Formatting the top-level fields of one row (numpy builds
`format % tuple(row)` with one `%.18e` per top-level field). -/
def formatRowFields : List NpField → Except PyErr (List String)
  | [] => Except.ok []
  | f :: fs => do
    let s ← formatFieldE f
    let rest ← formatRowFields fs
    Except.ok (s :: rest)

/-- Embedding of `np.savetxt(fh, X)` on a 1-D structured array: one
text line per row, top-level fields joined by the default single-space
delimiter.  The first formatting error aborts the loop; for the dtype
used here the very first row already fails, so nothing is written. -/
def savetxtModel : List (List NpField) → Except PyErr (List String)
  | [] => Except.ok []
  | row :: rest => do
    let line ← (formatRowFields row).map (String.intercalate " ")
    let lines ← savetxtModel rest
    Except.ok (line :: lines)

/-- A stored sample rendered as one row of the structured dtype
`np.dtype([('time', 'f8'), ('channels', channels_dtype)])`: the two
top-level fields are the timestamp and the *nested* channels record. -/
def sampleToNpRow (timeTxt : String) (chans : List String) : List NpField :=
  [NpField.f64 timeTxt, NpField.record (chans.map NpField.f64)]

/-- Embedding of `TimeSeries._write_to_file`:
`np.savetxt(self._file, self._data)` applied to the stored window,
whose rows have the nested structured dtype. -/
def writeToFileModel (rows : List (String × List String)) : Except PyErr (List String) :=
  savetxtModel (rows.map fun r => sampleToNpRow r.1 r.2)

/-- Lock-relevant events issued by the buffer's methods, in program
order.  `acq`/`rel` delimit a `with self._lock:` block or the
acquire/release pair inside the `data` property. -/
inductive LockEvent (α : Type) where
  | acq
  | rel
  | concatData (new : List α)
  | trimData
  | dataCopy
  | fileWrite
  | countWrite (v : Int)
  | countRead (v : Int)
  | setUpdated
  deriving Repr, DecidableEq

/-- Lock events of `TimeSeries._append`: enter `with self._lock`,
concatenate, then evaluate `self.data` — which acquires the same lock
again via the property — copy, leave the property block, trim, and
leave the outer block. -/
def appendLockTrace {α : Type} (new : List α) : List (LockEvent α) :=
  [LockEvent.acq, LockEvent.concatData new, LockEvent.acq, LockEvent.dataCopy,
   LockEvent.rel, LockEvent.trimData, LockEvent.rel]

/-- Lock events of a snapshot read (the `data` property). -/
def snapshotLockTrace (α : Type) : List (LockEvent α) :=
  [LockEvent.acq, LockEvent.dataCopy, LockEvent.rel]

/-- Lock events of `TimeSeries._write_to_file`. -/
def writeLockTrace (α : Type) : List (LockEvent α) :=
  [LockEvent.acq, LockEvent.fileWrite, LockEvent.rel]

/-- Lock events of one `TimeSeries.update` call, following the source
line by line: the counter decrement, the `cutoff` read and the `if
self._count < 1` read happen outside any lock; each `_append` and the
flush acquire the lock separately; the counter reset after the flush is
also outside the lock. -/
def updateLockTrace {α : Type} (s : TimeSeriesState α) (new : List α) :
    List (LockEvent α) :=
  let countDec : Int := s.count - (new.length : Int)
  let cutoff : Int := (new.length : Int) + countDec
  [LockEvent.countWrite countDec, LockEvent.countRead countDec]
    ++ appendLockTrace (sliceUpTo cutoff new)
    ++ [LockEvent.countRead countDec]
    ++ (if countDec < 1 then writeLockTrace α ++ [LockEvent.countWrite (s.nSamples : Int)]
        else [])
    ++ appendLockTrace (sliceFrom cutoff new)
    ++ [LockEvent.setUpdated]

/-- Each event paired with the lock depth at which it executes (the
depth before the event; an `acq` occurring at depth ≥ 1 is a re-entrant
attempt on the non-reentrant `threading.Lock`). -/
def eventsDepth {α : Type} : List (LockEvent α) → Int → List (LockEvent α × Int)
  | [], _ => []
  | e :: tr, d =>
    (e, d) :: eventsDepth tr (d + (match e with
      | LockEvent.acq => 1
      | LockEvent.rel => -1
      | _ => 0))

/-- Whether every `fill_counter` access in the trace happens while the
lock is held. -/
def countAccessesLocked {α : Type} (tr : List (LockEvent α)) : Bool :=
  (eventsDepth tr 0).all fun p =>
    match p.1 with
    | LockEvent.countWrite _ => decide (1 ≤ p.2)
    | LockEvent.countRead _ => decide (1 ≤ p.2)
    | _ => true

/-- Whether every non-lock event (the actual work) happens while the
lock is held — true exactly when the lock is held for the method's full
working duration. -/
def workEventsLocked {α : Type} (tr : List (LockEvent α)) : Bool :=
  (eventsDepth tr 0).all fun p =>
    match p.1 with
    | LockEvent.acq => true
    | LockEvent.rel => true
    | _ => decide (1 ≤ p.2)

/-- Whether some acquire is attempted while the lock is already held
(re-entry on the non-reentrant lock: deadlock at runtime). -/
def hasNestedAcquire {α : Type} (tr : List (LockEvent α)) : Bool :=
  (eventsDepth tr 0).any fun p =>
    match p.1 with
    | LockEvent.acq => decide (1 ≤ p.2)
    | _ => false

/-- Left-to-right scan deciding whether every file write happens in the
same critical section as the last preceding data mutation: returns
`false` iff some `fileWrite` occurs after a `concatData` with the lock
having been fully released (depth back to 0) strictly in between. -/
def flushScanAux {α : Type} : List (LockEvent α) → Int → Bool → Bool → Bool
  | [], _, _, _ => true
  | e :: tr, d, seenConcat, sawUnlocked =>
    match e with
    | LockEvent.acq => flushScanAux tr (d + 1) seenConcat sawUnlocked
    | LockEvent.rel =>
      flushScanAux tr (d - 1) seenConcat
        (sawUnlocked || (seenConcat && decide (d - 1 ≤ 0)))
    | LockEvent.concatData _ => flushScanAux tr d true false
    | LockEvent.fileWrite =>
      if seenConcat && sawUnlocked then false
      else flushScanAux tr d seenConcat sawUnlocked
    | _ => flushScanAux tr d seenConcat sawUnlocked

/-- Whether each flush happens in the same critical section as the
sub-append that triggered it. -/
def flushSameCritical {α : Type} (tr : List (LockEvent α)) : Bool :=
  flushScanAux tr 0 false false

/-! Basic lemmas about the slicing operations. -/

theorem sliceLastN_zero {α : Type} (xs : List α) : sliceLastN 0 xs = xs := by
  simp [sliceLastN]

theorem sliceLastN_eq_drop {α : Type} {n : Nat} (hn : n ≠ 0) (xs : List α) :
    sliceLastN n xs = xs.drop (xs.length - n) := by
  simp [sliceLastN, hn]

theorem length_sliceLastN {α : Type} (n : Nat) (xs : List α) :
    (sliceLastN n xs).length = if n = 0 then xs.length else min n xs.length := by
  by_cases h : n = 0
  · simp [sliceLastN, h]
  · simp only [sliceLastN, h, if_false, List.length_drop]
    omega

theorem sliceLastN_eq_reverse_take {α : Type} {n : Nat} (hn : n ≠ 0) (xs : List α) :
    sliceLastN n xs = (xs.reverse.take n).reverse := by
  rw [sliceLastN_eq_drop hn, List.take_reverse, List.reverse_reverse]

theorem take_append_take {α : Type} (n : Nat) (xs ys : List α) :
    (xs ++ ys.take n).take n = (xs ++ ys).take n := by
  rw [List.take_append_eq_append_take, List.take_append_eq_append_take, List.take_take]
  congr 1
  congr 1
  omega

/-- Appending then re-trimming is the same as trimming once at the end:
the two-phase append in `update` keeps exactly the last `n` samples of
the whole extended sequence. -/
theorem sliceLastN_append_sliceLastN {α : Type} (n : Nat) (u b : List α) :
    sliceLastN n (sliceLastN n u ++ b) = sliceLastN n (u ++ b) := by
  by_cases h : n = 0
  · simp [h, sliceLastN_zero]
  · rw [sliceLastN_eq_reverse_take h u, sliceLastN_eq_reverse_take h,
      sliceLastN_eq_reverse_take h (u ++ b)]
    rw [List.reverse_append, List.reverse_reverse, List.reverse_append]
    rw [take_append_take]

/-- A chunk of at most `n` samples just appended is a suffix of the
trimmed window. -/
theorem suffix_sliceLastN_append {α : Type} {n : Nat} (d a : List α)
    (ha : a.length ≤ n) : a <:+ sliceLastN n (d ++ a) := by
  by_cases h : n = 0
  · subst h
    have : a = [] := List.eq_nil_of_length_eq_zero (Nat.le_zero.mp ha)
    simp [this]
  · rw [sliceLastN_eq_drop h]
    rw [List.drop_append_eq_append_drop]
    have h1 : (d ++ a).length - n - d.length = 0 := by
      simp only [List.length_append]
      omega
    rw [h1, List.drop_zero]
    exact List.suffix_append _ _

theorem sliceUpTo_append_sliceFrom {α : Type} (c : Int) (xs : List α) :
    sliceUpTo c xs ++ sliceFrom c xs = xs := by
  simp [sliceUpTo, sliceFrom]

theorem sliceUpTo_of_nonneg {α : Type} {c : Int} (hc : 0 ≤ c) (xs : List α) :
    sliceUpTo c xs = xs.take c.toNat := by
  simp [sliceUpTo, hc]

theorem sliceFrom_of_nonneg {α : Type} {c : Int} (hc : 0 ≤ c) (xs : List α) :
    sliceFrom c xs = xs.drop c.toNat := by
  simp [sliceFrom, hc]

/-- Closed form for one `update` call: the final window is the last
`n_samples` of the old window extended by the whole chunk, the counter
is decremented and conditionally reset, and the trace consists of the
cutoff sub-append, the flush of the window as it stands after that
sub-append (when the decremented counter dropped below 1), and the
remainder sub-append. -/
theorem update_eq {α : Type} (s : TimeSeriesState α) (new : List α) :
    s.update new =
      ({ data := sliceLastN s.nSamples (s.data ++ new),
         count := if s.count - (new.length : Int) < 1 then (s.nSamples : Int)
                  else s.count - (new.length : Int),
         nSamples := s.nSamples },
       TSEvent.append (sliceUpTo s.count new) ::
         (if s.count - (new.length : Int) < 1 then
            [TSEvent.flush (sliceLastN s.nSamples (s.data ++ sliceUpTo s.count new)),
             TSEvent.append (sliceFrom s.count new)]
          else [TSEvent.append (sliceFrom s.count new)])) := by
  have hcut : (new.length : Int) + (s.count - (new.length : Int)) = s.count := by omega
  unfold TimeSeriesState.update
  simp only [hcut, TimeSeriesState.appendTrim]
  by_cases h : s.count - (new.length : Int) < 1
  · simp only [h, if_true]
    refine Prod.ext ?_ ?_
    · simp only
      refine TimeSeriesState.ext ?_ rfl rfl
      simp only
      rw [sliceLastN_append_sliceLastN, List.append_assoc, sliceUpTo_append_sliceFrom]
    · simp only
  · simp only [h, if_false]
    refine Prod.ext ?_ ?_
    · simp only
      refine TimeSeriesState.ext ?_ rfl rfl
      simp only
      rw [sliceLastN_append_sliceLastN, List.append_assoc, sliceUpTo_append_sliceFrom]
    · simp only

/-! Claim C1 and C2: the two-phase append algorithm of `TimeSeries.update`. -/

/-- C1: for a chunk of `k` samples appended via `TimeSeries.update` with
`fill_counter = c` on entry (`1 ≤ c ≤ n_samples`, window full), the
counter is first decremented by `k`; `cutoff = k + (c - k) = c` samples
of the chunk are appended first (clamped to `[0, k]` by slicing); if the
decremented counter dropped below 1 the entire current window (exactly
`n_samples` samples, ending with the cutoff samples just appended) is
flushed, exactly once, and the counter is reset to `n_samples`; then the
remaining `k - cutoff` samples are appended.  In particular `k = c`
falls under the flush case: exactly one flush of precisely the
`n_samples` most recent samples, and the counter resets. -/
theorem update_flush_boundary {α : Type} (s : TimeSeriesState α) (new : List α)
    (hlen : s.data.length = s.nSamples) (hc1 : 1 ≤ s.count)
    (hcn : s.count ≤ (s.nSamples : Int)) :
    (s.update new).2.head? = some (TSEvent.append (new.take s.count.toNat)) ∧
    (s.update new).1.data = sliceLastN s.nSamples (s.data ++ new) ∧
    ((new.length : Int) < s.count →
      flushesOf (s.update new).2 = [] ∧
      (s.update new).1.count = s.count - (new.length : Int)) ∧
    (s.count ≤ (new.length : Int) →
      flushesOf (s.update new).2 =
        [sliceLastN s.nSamples (s.data ++ new.take s.count.toNat)] ∧
      (sliceLastN s.nSamples (s.data ++ new.take s.count.toNat)).length = s.nSamples ∧
      new.take s.count.toNat <:+ sliceLastN s.nSamples (s.data ++ new.take s.count.toNat) ∧
      (s.update new).1.count = (s.nSamples : Int)) := by
  have hc0 : (0 : Int) ≤ s.count := by omega
  have hup := sliceUpTo_of_nonneg hc0 new
  have hn0 : s.nSamples ≠ 0 := by omega
  refine ⟨?_, ?_, ?_, ?_⟩
  · rw [update_eq]
    simp only [List.head?_cons, hup]
  · rw [update_eq]
  · intro hk
    have hcond : ¬ (s.count - (new.length : Int) < 1) := by omega
    rw [update_eq]
    simp only [hcond, if_false]
    simp [flushesOf]
  · intro hck
    have hcond : s.count - (new.length : Int) < 1 := by omega
    rw [update_eq]
    simp only [hcond, if_true, hup]
    refine ⟨?_, ?_, ?_, by trivial⟩
    · simp [flushesOf]
    · rw [length_sliceLastN, if_neg hn0, List.length_append, hlen]
      omega
    · refine suffix_sliceLastN_append _ _ ?_
      have := List.length_take s.count.toNat new
      omega

/-- Witness for C1 at a concrete boundary-exact chunk: capacity 2,
entering counter 2, chunk of 2 samples. -/
theorem update_flush_boundary_witness :
    (((⟨[10, 11], 2, 2⟩ : TimeSeriesState Nat).update [5, 6]).2.head? =
        some (TSEvent.append [5, 6])) ∧
    (((⟨[10, 11], 2, 2⟩ : TimeSeriesState Nat).update [5, 6]).1.data =
        sliceLastN 2 ([10, 11] ++ [5, 6])) ∧
    (flushesOf ((⟨[10, 11], 2, 2⟩ : TimeSeriesState Nat).update [5, 6]).2 =
        [sliceLastN 2 ([10, 11] ++ [5, 6].take 2)]) ∧
    ((sliceLastN 2 ([10, 11] ++ [5, 6].take 2)).length = 2) ∧
    ([5, 6].take 2 <:+ sliceLastN 2 ([10, 11] ++ [5, 6].take 2)) ∧
    (((⟨[10, 11], 2, 2⟩ : TimeSeriesState Nat).update [5, 6]).1.count = (2 : Int)) := by
  have h := update_flush_boundary (⟨[10, 11], 2, 2⟩ : TimeSeriesState Nat) [5, 6]
      rfl (by decide) (by decide)
  have hf := h.2.2.2 (by decide)
  exact ⟨h.1, h.2.1, hf.1, hf.2.1, hf.2.2.1, hf.2.2.2⟩

/-- C2: for capacity `n ≥ 1`, `initialize` establishes a window of
exactly `n` samples, and every `update` call of any chunk size
preserves it; moreover the retained window is exactly the last `n`
samples of the old window extended by the chunk (strict FIFO eviction
of the oldest samples). -/
theorem window_length_invariant {α : Type} (n : Nat) (z : α) (hn : 1 ≤ n) :
    (initialState n z).data.length = n ∧
    ∀ (s : TimeSeriesState α) (new : List α), s.nSamples = n → s.data.length = n →
      (s.update new).1.data.length = n ∧
      (s.update new).1.data = sliceLastN n (s.data ++ new) := by
  constructor
  · simp [initialState]
  · intro s new hns hlen
    have hd : (s.update new).1.data = sliceLastN s.nSamples (s.data ++ new) := by
      rw [update_eq]
    have hn0 : n ≠ 0 := by omega
    constructor
    · rw [hd, hns, length_sliceLastN, if_neg hn0, List.length_append, hlen]
      omega
    · rw [hd, hns]

/-- Witness for C2: capacity 2, an oversized chunk of 3 samples. -/
theorem window_length_invariant_witness :
    (initialState 2 (0 : Nat)).data.length = 2 ∧
    ((initialState 2 (0 : Nat)).update [5, 6, 7]).1.data.length = 2 ∧
    ((initialState 2 (0 : Nat)).update [5, 6, 7]).1.data =
      sliceLastN 2 ((initialState 2 (0 : Nat)).data ++ [5, 6, 7]) := by
  have h := window_length_invariant 2 (0 : Nat) (by decide)
  have h2 := h.2 (initialState 2 0) [5, 6, 7] rfl (by decide)
  exact ⟨h.1, h2.1, h2.2⟩

/-! Claim C10: the capacity floor `capacity ≥ 1` is not enforced. -/

/-- C10: if `n_samples = int(window * sfreq) = 0`, the trim slice
`self._data[-self.n_samples:]` is `[-0:]`, which keeps the entire
array; every `update` therefore grows the stored contents by the whole
chunk, and over any run the window length is the initial length plus
the total number of appended samples — the fixed-length-window property
fails for such a buffer. -/
theorem zero_capacity_unbounded_growth {α : Type} (s : TimeSeriesState α) (new : List α)
    (h : s.nSamples = 0) :
    sliceLastN s.nSamples (s.data ++ new) = s.data ++ new ∧
    (s.update new).1.data = s.data ++ new ∧
    (s.update new).1.data.length = s.data.length + new.length ∧
    ∀ chunks : List (List α),
      (runUpdates s chunks).1.data.length = s.data.length + (chunks.map List.length).sum := by
  have hrun : ∀ (chunks : List (List α)) (t : TimeSeriesState α), t.nSamples = 0 →
      (runUpdates t chunks).1.data.length = t.data.length + (chunks.map List.length).sum := by
    intro chunks
    induction chunks with
    | nil =>
      intro t ht
      simp [runUpdates]
    | cons c cs ih =>
      intro t ht
      have hns : (t.update c).1.nSamples = 0 := by rw [update_eq]; exact ht
      have hd : (t.update c).1.data = t.data ++ c := by
        rw [update_eq]
        simp only [ht, sliceLastN_zero]
      simp only [runUpdates]
      rw [ih _ hns, hd, List.length_append, List.map_cons, List.sum_cons]
      omega
  have hsecond : (s.update new).1.data = s.data ++ new := by
    rw [update_eq]
    simp only [h, sliceLastN_zero]
  refine ⟨by rw [h, sliceLastN_zero], hsecond, ?_, fun chunks => hrun chunks s h⟩
  rw [hsecond, List.length_append]

/-- Witness for C10: a zero-capacity buffer grows by every chunk. -/
theorem zero_capacity_unbounded_growth_witness :
    sliceLastN 0 (([] : List Nat) ++ [1, 2]) = [] ++ [1, 2] ∧
    ((⟨[], 0, 0⟩ : TimeSeriesState Nat).update [1, 2]).1.data = [] ++ [1, 2] ∧
    ((⟨[], 0, 0⟩ : TimeSeriesState Nat).update [1, 2]).1.data.length =
      ([] : List Nat).length + [1, 2].length ∧
    (runUpdates (⟨[], 0, 0⟩ : TimeSeriesState Nat) [[1], [2, 3]]).1.data.length =
      ([] : List Nat).length + ([[1], [2, 3]].map List.length).sum := by
  have h := zero_capacity_unbounded_growth (⟨[], 0, 0⟩ : TimeSeriesState Nat) [1, 2] rfl
  exact ⟨h.1, h.2.1, h.2.2.1, h.2.2.2 [[1], [2, 3]]⟩

/-! Claim C4: behavior of `update` on a chunk with
`len(timestamps) != len(samples)`. -/

/-- C4 counterexample: an `update` call with 2 timestamps and 1 sample
does not fail — `zip` silently truncates — and it mutates both the
stored window and the fill counter. -/
theorem length_mismatch_counterexample :
    (updateCall 1 (initialState 2 ((0, [0]) : Nat × List Nat)) [1, 2] [[5]]).toOption ≠
      none ∧
    (updateCall 1 (initialState 2 ((0, [0]) : Nat × List Nat)) [1, 2] [[5]]).toOption.map
        (fun r => r.1.data) ≠
      some (initialState 2 ((0, [0]) : Nat × List Nat)).data ∧
    (updateCall 1 (initialState 2 ((0, [0]) : Nat × List Nat)) [1, 2] [[5]]).toOption.map
        (fun r => r.1.count) ≠
      some (initialState 2 ((0, [0]) : Nat × List Nat)).count := by
  decide

/-- C4 corrected: a length mismatch between `timestamps` and `samples`
raises no error at all (provided the sample tuples match the declared
channel arity): `zip` silently truncates the chunk to the first
`min(len(timestamps), len(samples))` pairs, and those pairs are
appended normally, mutating the state. -/
theorem length_mismatch_truncates {τ : Type} (nChan : Nat)
    (s : TimeSeriesState (τ × List τ)) (ts : List τ) (ss : List (List τ))
    (_hlen_ne : ts.length ≠ ss.length) (harity : ∀ x ∈ ss, x.length = nChan) :
    updateCall nChan s ts ss = Except.ok (s.update (ts.zip ss)) ∧
    (ts.zip ss).length = min ts.length ss.length := by
  have hall : (ts.zip ss).all (fun p => p.2.length = nChan) = true := by
    rw [List.all_eq_true]
    rintro ⟨a, b⟩ hp
    simp only [decide_eq_true_eq]
    exact harity b (List.of_mem_zip hp).2
  constructor
  · simp [updateCall, formatSamples, hall, Except.map]
  · simp

/-- Witness for C4's corrected statement at the counterexample input. -/
theorem length_mismatch_truncates_witness :
    updateCall 1 (initialState 2 ((0, [0]) : Nat × List Nat)) [1, 2] [[5]] =
      Except.ok ((initialState 2 ((0, [0]) : Nat × List Nat)).update ([1, 2].zip [[5]])) ∧
    ([1, 2].zip [[5]]).length = min [1, 2].length [[5]].length :=
  length_mismatch_truncates 1 _ [1, 2] [[5]] (by decide) (by decide)

/-! Claim C5: number of samples appended between two consecutive flushes. -/

theorem gapsAux_append {α : Type} (t1 t2 : List (TSEvent α)) (o : Option Nat) :
    gapsAux (t1 ++ t2) o = gapsAux t1 o ++ gapsAux t2 (gapsState t1 o) := by
  induction t1 generalizing o with
  | nil => rfl
  | cons e tr ih =>
    cases e with
    | append ch =>
      cases o with
      | none => simpa [gapsAux, gapsState] using ih none
      | some g => simpa [gapsAux, gapsState] using ih (some (g + ch.length))
    | flush w =>
      cases o with
      | none => simpa [gapsAux, gapsState] using ih (some 0)
      | some g => simpa [gapsAux, gapsState] using ih (some 0)

/-- The event trace of one `update` call, extracted from `update_eq`. -/
theorem update_snd_eq {α : Type} (s : TimeSeriesState α) (new : List α) :
    (s.update new).2 = TSEvent.append (sliceUpTo s.count new) ::
      (if s.count - (new.length : Int) < 1 then
        [TSEvent.flush (sliceLastN s.nSamples (s.data ++ sliceUpTo s.count new)),
         TSEvent.append (sliceFrom s.count new)]
       else [TSEvent.append (sliceFrom s.count new)]) :=
  congrArg Prod.snd (update_eq s new)

theorem update_count_eq {α : Type} (s : TimeSeriesState α) (new : List α) :
    (s.update new).1.count =
      (if s.count - (new.length : Int) < 1 then (s.nSamples : Int)
       else s.count - (new.length : Int)) :=
  congrArg (fun p => p.1.count) (update_eq s new)

theorem update_nSamples_eq {α : Type} (s : TimeSeriesState α) (new : List α) :
    (s.update new).1.nSamples = s.nSamples :=
  congrArg (fun p => p.1.nSamples) (update_eq s new)

theorem gaps_all_eq {α : Type} (n : Nat) (chunks : List (List α)) :
    ∀ (s : TimeSeriesState α) (o : Option Nat), s.nSamples = n →
      straddleFree n s.count (chunks.map List.length) = true →
      (∀ g, o = some g → s.count = (n : Int) - (g : Int)) →
      ∀ x ∈ gapsAux (runUpdates s chunks).2 o, x = n := by
  induction chunks with
  | nil =>
    intro s o _ _ _ x hx
    simp [runUpdates, gapsAux] at hx
  | cons ch cs ih =>
    intro s o hns hsf hinv x hx
    simp only [runUpdates] at hx
    rw [gapsAux_append] at hx
    have hcount : (s.update ch).1.nSamples = n := by rw [update_nSamples_eq]; exact hns
    simp only [List.map_cons, straddleFree] at hsf
    by_cases hflush : s.count - (ch.length : Int) < 1
    · rw [if_pos hflush] at hsf
      have hsf' : straddleFree n (n : Int) (cs.map List.length) = true :=
        Bool.and_elim_right hsf
      have hceq : s.count = (ch.length : Int) :=
        of_decide_eq_true (Bool.and_elim_left hsf)
      have hnn : (0 : Int) ≤ s.count := by omega
      have hupv : sliceUpTo s.count ch = ch := by
        rw [sliceUpTo_of_nonneg hnn, hceq]
        simp
      have hfromv : sliceFrom s.count ch = [] := by
        rw [sliceFrom_of_nonneg hnn, hceq]
        simp
      have htrace : (s.update ch).2 =
          [TSEvent.append ch,
           TSEvent.flush (sliceLastN s.nSamples (s.data ++ ch)), TSEvent.append []] := by
        rw [update_snd_eq, if_pos hflush, hupv, hfromv]
      have hcnt : (s.update ch).1.count = (n : Int) := by
        rw [update_count_eq, if_pos hflush, hns]
      rw [htrace] at hx
      rcases List.mem_append.mp hx with hx | hx
      · cases o with
        | none => simp [gapsAux] at hx
        | some g =>
          simp only [gapsAux, List.mem_singleton, List.not_mem_nil] at hx
          have hg := hinv g rfl
          omega
      · refine ih (s.update ch).1 _ hcount ?_ ?_ x hx
        · rw [hcnt]
          exact hsf'
        · intro g hg
          cases o with
          | none =>
            simp only [gapsState, List.length_nil, Option.some.injEq] at hg
            rw [hcnt, ← hg]
            simp
          | some g0 =>
            simp only [gapsState, List.length_nil, Option.some.injEq] at hg
            rw [hcnt, ← hg]
            simp
    · rw [if_neg hflush] at hsf
      have htrace : (s.update ch).2 =
          [TSEvent.append (sliceUpTo s.count ch), TSEvent.append (sliceFrom s.count ch)] := by
        rw [update_snd_eq, if_neg hflush]
      have hcnt : (s.update ch).1.count = s.count - (ch.length : Int) := by
        rw [update_count_eq, if_neg hflush]
      have hks : (sliceUpTo s.count ch).length + (sliceFrom s.count ch).length = ch.length := by
        rw [← List.length_append, sliceUpTo_append_sliceFrom]
      rw [htrace] at hx
      rcases List.mem_append.mp hx with hx | hx
      · cases o <;> simp [gapsAux] at hx
      · refine ih (s.update ch).1 _ hcount ?_ ?_ x hx
        · rw [hcnt]
          exact hsf
        · intro g hg
          cases o with
          | none => simp [gapsState] at hg
          | some g0 =>
            simp only [gapsState, Option.some.injEq] at hg
            have hg0 := hinv g0 rfl
            rw [hcnt, ← hg]
            push_cast
            omega

/-- C5 counterexample: capacity 2, an initialized buffer, chunks of
sizes 3 then 2.  The first chunk straddles the flush boundary (its last
sample is appended after the flush without being counted against the
reset counter), so the two flushes are separated by 3 appended samples,
not `capacity = 2`. -/
theorem flush_separation_counterexample :
    ¬ ∀ x ∈ flushGaps (runUpdates (initialState 2 (0 : Nat)) [[1, 2, 3], [4, 5]]).2,
        x = 2 := by
  decide

/-- C5 corrected: consecutive flushes are separated by exactly
`capacity` appended samples provided no flush-triggering chunk
straddles the boundary (each such chunk's size equals the fill counter
on entry).  In general the separation is `capacity` plus the length of
the remainder appended after the earlier flush, because that remainder
is not counted against the reset counter. -/
theorem flush_separation_straddle_free {α : Type} (n : Nat) (z : α)
    (chunks : List (List α))
    (h : straddleFree n (n : Int) (chunks.map List.length) = true) :
    flushGaps (runUpdates (initialState n z) chunks).2 =
      List.replicate (flushGaps (runUpdates (initialState n z) chunks).2).length n := by
  rw [List.eq_replicate_length]
  intro b hb
  exact gaps_all_eq n chunks (initialState n z) none rfl h (by intro g hg; cases hg) b hb

/-- Witness for C5's corrected statement: capacity 2, two
boundary-exact chunks. -/
theorem flush_separation_straddle_free_witness :
    flushGaps (runUpdates (initialState 2 (0 : Nat)) [[1, 2], [3, 4]]).2 =
      List.replicate
        (flushGaps (runUpdates (initialState 2 (0 : Nat)) [[1, 2], [3, 4]]).2).length 2 :=
  flush_separation_straddle_free 2 0 [[1, 2], [3, 4]] (by decide)

/-! Claim C3: the `TimeSeries` constructor. -/

/-- C3: constructing a `TimeSeries` always raises `AttributeError` and
never yields a usable buffer: `Data.__init__` calls `self.initialize()`
before `self._lock` is assigned, and `TimeSeries.initialize` reads
`self._lock`, `self.n_samples` and `self._dtype`, all assigned only
after `Data.__init__` returns; independently, the later assignment
`self.window = window` would also raise `AttributeError` for any
attribute store, because `window` is a getter-only property. -/
theorem constructor_always_attribute_error (α : Type) (zero : α) (n : Nat) :
    timeSeriesConstructor α zero n = Except.error PyErr.attributeError ∧
    ∀ o : TSObj α, setWindowAttr o = Except.error PyErr.attributeError := by
  exact ⟨rfl, fun o => rfl⟩

/-! Claim C9: reading the snapshot property before initialization. -/

/-- C9: on any instance on which `initialize` has not successfully run
(`self._data` is assigned nowhere else, so `dataAttr = none`), reading
the `data` snapshot property fails with `NotImplementedError` — the
spec's `NotInitialized` — rather than returning a window; this holds
whether or not `self._lock` exists yet. -/
theorem snapshot_before_init_not_implemented {α : Type} (o : TSObj α)
    (h : o.dataAttr = none) :
    dataPropertyMethod o = Except.error PyErr.notImplementedError := by
  unfold dataPropertyMethod
  by_cases hl : o.hasLock = false
  · rw [if_pos hl]
  · rw [if_neg hl, h]

/-- Witness for C9 on a freshly allocated instance. -/
theorem snapshot_before_init_not_implemented_witness :
    dataPropertyMethod (freshTSObj Nat) = Except.error PyErr.notImplementedError :=
  snapshot_before_init_not_implemented (freshTSObj Nat) rfl

/-! Claim C7: the dejitter continuity anchor in `LSLStreamer.run`. -/

/-- C7 (code bug): with dejitter enabled and a non-empty pulled chunk,
the loop body evaluates `self.data['time'][-1]` where `self.data` is
the bound `TimeSeries` *object* — which defines no `__getitem__` — so
the iteration raises `TypeError` before the buffer's `update` is ever
called, instead of dejittering against the last stored timestamp
(which would require `self.data.data['time'][-1]`). -/
theorem dejitter_anchor_type_error {τ : Type} (dejitterFn : List τ → τ → τ → List τ)
    (sfreq : τ) (nChan : Nat) (s : TimeSeriesState (τ × List τ))
    (timestamps : List τ) (samples : List (List τ)) (hne : timestamps ≠ []) :
    runIteration dejitterFn sfreq true nChan (StreamerBuffer.tsObject s)
        timestamps samples =
      Except.error PyErr.typeError := by
  cases timestamps with
  | nil => exact absurd rfl hne
  | cons t ts => rfl

/-- Witness for C7 at a concrete chunk. -/
theorem dejitter_anchor_type_error_witness :
    runIteration (fun ts _ _ => ts) 0 true 1
        (StreamerBuffer.tsObject (initialState 1 ((0, [0]) : Nat × List Nat))) [1] [[2]] =
      Except.error PyErr.typeError :=
  dejitter_anchor_type_error (fun ts _ _ => ts) 0 1
    (initialState 1 ((0, [0]) : Nat × List Nat)) [1] [[2]] (by decide)

/-! Claim C8: the persistence flush serialization. -/

/-- C8 (code bug): every flush of a non-empty window raises
`TypeError`: `np.savetxt` formats each of the two top-level fields of a
structured row with `%.18e`, and the `channels` field is a nested
record (`numpy.void`), which `%`-formatting rejects.  No row is ever
written in the claimed whitespace-separated
`[timestamp, channel_1, ...]` text format. -/
theorem savetxt_nested_dtype_type_error (rows : List (String × List String))
    (hne : rows ≠ []) :
    writeToFileModel rows = Except.error PyErr.typeError := by
  cases rows with
  | nil => exact absurd rfl hne
  | cons r rest => rfl

/-- Witness for C8: a one-sample, one-channel window. -/
theorem savetxt_nested_dtype_type_error_witness :
    writeToFileModel [("0.5", ["1.5"])] = Except.error PyErr.typeError :=
  savetxt_nested_dtype_type_error [("0.5", ["1.5"])] (by simp)

/-! Claim C6: lock discipline of snapshot, update and the embedded
flush. -/

/-- C6 counterexample: for a concrete flush-triggering update (capacity
2, counter 2, chunk of 2 samples), the fill counter is accessed at lock
depth 0 (outside the lock), the flush's file write happens in a
different critical section from the triggering sub-append (the lock is
fully released in between), and hence the lock is not held for the full
duration of the update call. -/
theorem flush_locking_counterexample :
    countAccessesLocked (updateLockTrace (⟨[0, 0], 2, 2⟩ : TimeSeriesState Nat) [1, 2]) =
      false ∧
    flushSameCritical (updateLockTrace (⟨[0, 0], 2, 2⟩ : TimeSeriesState Nat) [1, 2]) =
      false ∧
    workEventsLocked (updateLockTrace (⟨[0, 0], 2, 2⟩ : TimeSeriesState Nat) [1, 2]) =
      false := by
  decide

/-- C6 corrected: the snapshot (`data` property) does hold the lock for
its whole body, but `update` does not: for every flush-triggering
update, the `fill_counter` accesses happen outside the lock, the
flush's file write is in a separate critical section from the
sub-append that triggered it — the lock is fully released in between,
so a reader can acquire it and observe the window before the flush —
and `_append` even re-acquires the non-reentrant lock via the `data`
property while already holding it. -/
theorem flush_locking_amended {α : Type} (s : TimeSeriesState α) (new : List α)
    (hflush : s.count - (new.length : Int) < 1) :
    workEventsLocked (snapshotLockTrace α) = true ∧
    countAccessesLocked (updateLockTrace s new) = false ∧
    flushSameCritical (updateLockTrace s new) = false ∧
    hasNestedAcquire (updateLockTrace s new) = true := by
  refine ⟨rfl, ?_, ?_, ?_⟩ <;>
  · simp only [updateLockTrace, if_pos hflush]
    rfl

/-- Witness for C6's corrected statement at a concrete
flush-triggering update. -/
theorem flush_locking_amended_witness :
    workEventsLocked (snapshotLockTrace Nat) = true ∧
    countAccessesLocked (updateLockTrace (⟨[9, 9], 1, 2⟩ : TimeSeriesState Nat) [4]) =
      false ∧
    flushSameCritical (updateLockTrace (⟨[9, 9], 1, 2⟩ : TimeSeriesState Nat) [4]) =
      false ∧
    hasNestedAcquire (updateLockTrace (⟨[9, 9], 1, 2⟩ : TimeSeriesState Nat) [4]) =
      true :=
  flush_locking_amended (⟨[9, 9], 1, 2⟩ : TimeSeriesState Nat) [4] (by decide)

end WizardHat
